import Mathlib

/-!
Verification development for the manga scraping pipeline (`manga.py`).

The program is shallowly embedded: pure string manipulation is translated
directly; the external collaborators (Selenium renderer, regex extraction
over fetched HTML, HTTP image fetch) are modelled as oracle records whose
fields give the outcome of each external call; the filesystem is a list of
existing paths; effects (render calls, fetches, sleeps, writes) are
recorded in an explicit trace.  Unbounded recursive retry is modelled with
an explicit list of per-attempt oracles acting as fuel: running out of
attempts yields a distinguished `fuelOut` result, never a success.
-/

namespace Manga

/-- Python whitespace characters relevant to `str.strip()` (ASCII range). -/
def isSpaceChar (c : Char) : Bool :=
  c = ' ' || c = '\t' || c = '\n' || c = '\r' || c = '\x0b' || c = '\x0c'

/-- `str.strip()`: drop whitespace from both ends. -/
def stripChars (l : List Char) : List Char :=
  ((l.dropWhile isSpaceChar).reverse.dropWhile isSpaceChar).reverse

/-- `str.replace('.', '-')` (single-character replacement). -/
def replaceDotDash (l : List Char) : List Char :=
  l.map (fun c => if c = '.' then '-' else c)

/-- `str.split('-')` on a single-character separator. -/
def splitDash : List Char → List (List Char)
  | [] => [[]]
  | '-' :: rest => [] :: splitDash rest
  | c :: rest =>
    match splitDash rest with
    | [] => [[c]]
    | g :: gs => (c :: g) :: gs

/-- `s[s.rindex('/')+1:]` / `s[s.rfind('/')+1:]`: the suffix after the last
slash; the whole string when no slash occurs (the `rfind` behaviour, since
`rfind` returns `-1` then). -/
def afterLastSlash (s : String) : String :=
  String.mk ((s.toList.reverse.takeWhile (fun c => c ≠ '/')).reverse)

/-- `str.zfill(4)` for sign-less strings (all call sites pass digit strings
captured by `\d`-regexes). -/
def zfill4 (s : String) : String :=
  if s.length ≥ 4 then s else String.mk (List.replicate (4 - s.length) '0') ++ s

/-- Whether `pat` occurs at the very front of `s`. -/
def isPre : List Char → List Char → Bool
  | [], _ => true
  | _ :: _, [] => false
  | p :: ps, c :: cs => p = c && isPre ps cs

/-- Whether `pat` occurs as a contiguous run somewhere in `s`. -/
def hasSub (pat : List Char) : List Char → Bool
  | [] => pat.isEmpty
  | c :: cs => isPre pat (c :: cs) || hasSub pat cs

/-- Python's `pat in s` substring test. -/
def containsSub (s pat : String) : Bool :=
  hasSub pat.toList s.toList

/-- `re.search('\-([\d]+)\-', s)`: leftmost run of one or more digits that is
both preceded and followed by a hyphen; returns the captured digit run. -/
def findHyphenNum : List Char → Option (List Char)
  | [] => none
  | '-' :: rest =>
    let ds := rest.takeWhile Char.isDigit
    if ds.isEmpty then findHyphenNum rest
    else
      match rest.drop ds.length with
      | '-' :: _ => some ds
      | _ => findHyphenNum rest
  | _ :: rest => findHyphenNum rest

/-- `re.search('-(\d+\.?\d*)-', s)`: leftmost match of digits, an optional
dot plus further digits, enclosed in hyphens; returns the capture. -/
def findNumMarker : List Char → Option (List Char)
  | [] => none
  | '-' :: rest =>
    let d1 := rest.takeWhile Char.isDigit
    if d1.isEmpty then findNumMarker rest
    else
      match rest.drop d1.length with
      | '-' :: _ => some d1
      | '.' :: rest2 =>
        let d2 := rest2.takeWhile Char.isDigit
        (match rest2.drop d2.length with
         | '-' :: _ => some (d1 ++ '.' :: d2)
         | _ => findNumMarker rest)
      | _ => findNumMarker rest
  | _ :: rest => findNumMarker rest

/-- Scanner for the non-greedy group of `comic/(.+?)/.+`: extend the group
one character at a time until a slash with at least one following character
is found. `acc` holds the group so far, reversed. -/
def segScan (acc : List Char) : List Char → Option (List Char)
  | '/' :: _ :: _ => some acc.reverse
  | c :: cs => segScan (c :: acc) cs
  | [] => none

/-- The `(.+?)` capture of `https://comick.app/comic/(.+?)/.+` applied to
the remainder after the literal: shortest non-empty run followed by a slash
and at least one more character. -/
def containerGroup : List Char → Option (List Char)
  | [] => none
  | c :: cs => segScan [c] cs

/-- Remainder of `s` after the first occurrence of `pat`, if any. -/
def findPatRemainder (pat : List Char) : List Char → Option (List Char)
  | [] => if pat.isEmpty then some [] else none
  | c :: cs =>
    if isPre pat (c :: cs) then some ((c :: cs).drop pat.length)
    else findPatRemainder pat cs

/-- The literal part of the container pattern. -/
def comickComicPat : List Char := "https://comick.app/comic/".toList

/-- `re.search(r'https://comick.app/comic/(.+?)/.+', link).group(1)`:
`none` models the `AttributeError` crash of `.group(1)` on a failed
search. -/
def containerOf (link : String) : Option String :=
  (findPatRemainder comickComicPat link.toList).bind
    (fun rem => (containerGroup rem).map String.mk)

/-- The title slug: spaces to hyphens, keep only letters/digits/hyphens,
lowercased. -/
def slugOf (title : String) : String :=
  String.mk
    (((title.toList.map (fun ch => if ch = ' ' then '-' else ch)).filter
      (fun ch => ch.isAlpha || ch.isDigit || ch = '-')).map Char.toLower)

/-- The zero-padded numeric file-name prefix derived from a normalized
sequence id: `nums = id.split('-'); nums[0].zfill(4)` plus `-nums[1]` when a
second component exists. -/
def numPrefixOf (index : String) : String :=
  match splitDash index.toList with
  | [] => zfill4 ""
  | [n0] => zfill4 (String.mk n0)
  | n0 :: n1 :: _ => zfill4 (String.mk n0) ++ "-" ++ String.mk n1

/-! ## Effects and oracles -/

/-- Observable effects of one program run: renderer invocations, network
fetches, temp-file writes, sleeps, directory creation, a final document
write, and worker launches by the supervisor. -/
inductive Eff
  | scrapeCall (url : String) (delay : Nat)
  | fetchCall (url : String)
  | writeTemp (name : String)
  | sleep (units : Nat)
  | mkdir (dir : String)
  | writePdf (path : String)
  | launch (target : String)
  deriving DecidableEq, Repr

/-- Outcome of one external call in `create_pdf`: the renderer result
(`none` = the call raised), the image URLs the extraction regex yields on
a given HTML text, and whether fetching/decoding a given image URL
succeeds (`none` = the `try` block raised). -/
structure PdfOracle where
  scrape : Option String
  extractImages : String → List String
  fetch : String → Option Unit

/-- Result of `create_pdf`: a returned count, an uncaught Python exception,
or exhaustion of the supplied attempt oracles (the modelling fuel). -/
inductive PdfRes
  | count (n : Nat)
  | exn
  | fuelOut
  deriving DecidableEq, Repr

/-- Lines 51–54 of `manga.py`: the chapter component of the file name.
`m = re.search('\-([\d]+)\-', website)`; on a match, the capture zero
padded, otherwise the suffix after the last `/` — `website.rindex('/')`
raises (modelled by `Except.error`) when no slash occurs. -/
def chapterOf (website : String) : Except Unit String :=
  match findHyphenNum website.toList with
  | some ds => .ok (zfill4 (String.mk ds))
  | none =>
    if website.toList.contains '/' then .ok (afterLastSlash website)
    else .error ()

/-- Lines 51–56: the resolved output name.  `chapter` is computed before
the `outname is None` test, so its exception fires even when `outname` is
supplied. -/
def resolvedOutname (website outdir : String) (onm : Option String) :
    Except Unit String :=
  match onm with
  | some n => (chapterOf website).map (fun _ => n)
  | none => (chapterOf website).map (fun ch => afterLastSlash outdir ++ "-" ++ ch)

/-- Line 57: the derived artifact path `outdir + '/' + outname + '.pdf'`. -/
def derivedPdfPath (website outdir : String) (onm : Option String) :
    Except Unit String :=
  (resolvedOutname website outdir onm).map (fun n => outdir ++ "/" ++ n ++ ".pdf")

/-- Outcome of the image download loop (lines 78–90). -/
inductive FOut
  | allOk
  | failed
  | badUrl
  deriving DecidableEq, Repr

/-- Lines 78–90: fetch each image URL in order.  The temp name
`url[url.rindex('/')+1:]` is computed outside the `try`, so a URL without a
slash crashes (`badUrl`); a raising fetch/decode aborts the loop
(`failed`). -/
def fetchLoop (a : PdfOracle) : List String → List Eff × FOut
  | [] => ([], .allOk)
  | u :: us =>
    if u.toList.contains '/' then
      match a.fetch u with
      | some _ =>
        let r := fetchLoop a us
        (Eff.fetchCall u :: Eff.writeTemp (afterLastSlash u) :: r.1, r.2)
      | none => ([Eff.fetchCall u], .failed)
    else ([], .badUrl)

/-- Outcome of one scrape-and-assemble attempt of `create_pdf`. -/
inductive AttOut
  | success
  | retry
  | crashed
  deriving DecidableEq, Repr

/-- Lines 63–105, one attempt: scrape (a raising scrape retries at once),
extract image URLs, download them (a raising fetch sleeps 10 then
retries), retry when no image was extracted (also sleeping 10), otherwise
create `outdir` if missing and write the document. -/
def attemptPdf (fs : List String) (w : String) (delay : Nat)
    (pdf od : String) (a : PdfOracle) : List Eff × AttOut :=
  match a.scrape with
  | none => ([Eff.scrapeCall w delay], .retry)
  | some html =>
    let urls := a.extractImages html
    let fl := fetchLoop a urls
    match fl.2 with
    | .badUrl => (Eff.scrapeCall w delay :: fl.1, .crashed)
    | .failed =>
      (Eff.scrapeCall w delay :: (fl.1 ++ [Eff.sleep 10]), .retry)
    | .allOk =>
      if urls.isEmpty then
        (Eff.scrapeCall w delay :: (fl.1 ++ [Eff.sleep 10]), .retry)
      else
        (Eff.scrapeCall w delay ::
           (fl.1 ++ (if fs.contains od then [] else [Eff.mkdir od])
               ++ [Eff.writePdf pdf]),
         .success)

/-- `create_pdf(website, delay, outdir, outname)` (lines 47–105).  The
attempt list supplies one oracle per recursive attempt; every retry path
recurses with `delay + 5` and the resolved `outname`.  The artifact-path
derivation and the cache check precede any external work. -/
def createPdf (fs : List String) (w od : String) :
    List PdfOracle → Nat → Option String → List Eff × PdfRes
  | [], _, onm =>
    (match resolvedOutname w od onm with
     | .error _ => ([], .exn)
     | .ok oname =>
       if fs.contains (od ++ "/" ++ oname ++ ".pdf") then ([], .count 0)
       else ([], .fuelOut))
  | a :: rest, delay, onm =>
    (match resolvedOutname w od onm with
     | .error _ => ([], .exn)
     | .ok oname =>
       let pdf := od ++ "/" ++ oname ++ ".pdf"
       if fs.contains pdf then ([], .count 0)
       else
         let att := attemptPdf fs w delay pdf od a
         match att.2 with
         | .success => (att.1, .count 1)
         | .crashed => (att.1, .exn)
         | .retry =>
           let r := createPdf fs w od rest (delay + 5) (some oname)
           (att.1 ++ r.1, r.2))

/-- Filesystem update performed by one effect. -/
def applyEff (fs : List String) : Eff → List String
  | .writePdf p => p :: fs
  | .mkdir d => d :: fs
  | _ => fs

/-- Filesystem after a trace of effects (temp files live in a temporary
directory that is destroyed with the `with` block, so they are not added). -/
def applyTrace (fs : List String) (tr : List Eff) : List String :=
  tr.foldl applyEff fs

/-! ## Listing resolution (`chapter_index`) -/

/-- One raw regex match from the chapter table (lines 118–134): the link
capture, the `Ch. (\d+\.?\d*)` capture before normalization, the title
capture, and the download-count capture (a `(\d+)` string, carried as the
number `int()` yields on it). -/
structure RawEntry where
  link : String
  num : String
  title : String
  downloads : Nat
  deriving DecidableEq, Repr

/-- A normalized listing entry as appended to `items` (line 145):
`(chapter, index, name, downloads)`. -/
structure Entry where
  link : String
  index : String
  name : String
  downloads : Nat
  deriving DecidableEq, Repr

/-- Lines 131–146, one loop iteration: normalize the sequence id
(`.` → `-`), strip the title, absolutize the link, and discard the
entry (`continue`) when the link embeds a numeric marker disagreeing with
the stated id. -/
def normalizeEntry (r : RawEntry) : Option Entry :=
  let index := String.mk (replaceDotDash r.num.toList)
  let name := String.mk (stripChars r.title.toList)
  let chapter :=
    if containsSub r.link "https:" then r.link
    else "https://comick.app" ++ r.link
  match findNumMarker chapter.toList with
  | some ds =>
    if String.mk (replaceDotDash ds) = index then
      some ⟨chapter, index, name, r.downloads⟩
    else none
  | none => some ⟨chapter, index, name, r.downloads⟩

/-- The surviving `items` list, in page order. -/
def normalizeEntries (l : List RawEntry) : List Entry :=
  l.filterMap normalizeEntry

/-- `itertools.groupby(items, lambda x: x[1])`: group adjacent entries
sharing a sequence id, preserving order. -/
def groupByAdj : List Entry → List (List Entry)
  | [] => []
  | x :: xs =>
    match groupByAdj xs with
    | [] => [[x]]
    | g :: gs =>
      match g with
      | [] => [x] :: gs
      | y :: _ => if x.index = y.index then (x :: g) :: gs else [x] :: g :: gs

/-- Stable descending insertion by download count: an element placed before
every later element of strictly smaller or equal key. -/
def insertDesc (x : Entry) : List Entry → List Entry
  | [] => [x]
  | y :: ys => if x.downloads ≥ y.downloads then x :: y :: ys else y :: insertDesc x ys

/-- `group.sort(key=lambda x: int(x[3]), reverse=True)`: a stable sort by
descending download count. -/
def sortDesc (l : List Entry) : List Entry :=
  l.foldr insertDesc []

/-- The first element of a list attaining the maximal download count. -/
def firstMaxBy : List Entry → Option Entry
  | [] => none
  | x :: xs =>
    match firstMaxBy xs with
    | none => some x
    | some m => some (if x.downloads ≥ m.downloads then x else m)

/-- Lines 154–160: one winner per adjacent group, the head of the stably
descending-sorted group (`group[0]` after the in-place sort). -/
def selectWinners (items : List Entry) : List Entry :=
  (groupByAdj items).filterMap (fun g => (sortDesc g).head?)

/-- Lines 162–168: derive the container name and composed output name for
a winning entry; `none` models the `.group(1)` crash when the link does
not match the container pattern. -/
def deriveArgs (w : Entry) : Option (String × String) :=
  (containerOf w.link).map
    (fun man => (man, man ++ "_" ++ numPrefixOf w.index ++ "_" ++ slugOf w.name))

/-- The artifact path that `create_pdf(top[0], delay, man, outname)` checks
and writes for a winning entry: `man + '/' + outname + '.pdf'`. -/
def derivedListingPath (w : Entry) : Option String :=
  (deriveArgs w).map (fun p => p.1 ++ "/" ++ p.2 ++ ".pdf")

/-- Lines 157–169: process the winners in order, retrieving each via
`create_pdf` — abstracted as `retrieve link delay outdir outname`, the
count it returns — and summing the counts; `Except.error` models the
crash of the container derivation on a non-matching link. -/
def winnersTotal (retrieve : String → Nat → String → String → Nat)
    (delay : Nat) : List Entry → Except Unit Nat
  | [] => .ok 0
  | w :: ws =>
    match deriveArgs w with
    | none => .error ()
    | some (man, onm) =>
      (winnersTotal retrieve delay ws).map
        (fun t => retrieve w.link delay man onm + t)

/-- Per-attempt oracle for `chapter_index`: the renderer result (`none` =
the uncaught raise of line 111), the `re.findall('<table.+?>.+?</table>',
html)` result, and the raw entry matches the scanning loop yields on the
selected table. -/
structure IdxOracle where
  scrape : Option String
  tables : String → List String
  rawEntries : String → List RawEntry

/-- Result of `chapter_index`: a returned total, an uncaught exception, or
attempt-fuel exhaustion. -/
inductive IdxRes
  | count (n : Nat)
  | exn
  | fuelOut
  deriving DecidableEq, Repr

/-- `chapter_index(url, delay)` (lines 109–171).  The scrape is not
guarded by a `try`, so a raising scrape is an uncaught exception; fewer
than three tables crash the positional `[2]` selection; an empty surviving
entry list sleeps 10 and retries with `delay + 5`; otherwise winners are
selected and retrieved. -/
def chapterIndexF (retrieve : String → Nat → String → String → Nat) :
    List IdxOracle → String → Nat → List Eff × IdxRes
  | [], _, _ => ([], .fuelOut)
  | a :: rest, url, delay =>
    match a.scrape with
    | none => ([Eff.scrapeCall url delay], .exn)
    | some html =>
      match (a.tables html)[2]? with
      | none => ([Eff.scrapeCall url delay], .exn)
      | some tbl =>
        let items := normalizeEntries (a.rawEntries tbl)
        if items.isEmpty then
          let r := chapterIndexF retrieve rest url (delay + 5)
          (Eff.scrapeCall url delay :: Eff.sleep 10 :: r.1, r.2)
        else
          match winnersTotal retrieve delay (selectWinners items) with
          | .error _ => ([Eff.scrapeCall url delay], .exn)
          | .ok t => ([Eff.scrapeCall url delay], .count t)

/-! ## Supervisor (`__main__`, `-i` branch, lines 177–196) -/

/-- `last_line` after mirroring a worker's output: initialized to the empty
string, overwritten by each line in order. -/
def lastLineOf (out : List String) : String :=
  out.foldl (fun _ l => l) ""

/-- Line 188: `'Total' in last_line`. -/
def hasTotalSignal (line : String) : Bool :=
  containsSub line "Total"

/-- Line 192: `last_line.split(' ')[-1].strip()` — the last element of a
single-space split is the suffix after the last space (the whole line when
no space occurs), then stripped. -/
def lastToken (line : String) : String :=
  String.mk (stripChars ((line.toList.reverse.takeWhile (fun c => c ≠ ' ')).reverse))

/-- Supervisor result: a `sys.exit` code, or exhaustion of the supplied
worker runs while still relaunching. -/
inductive SupRes
  | exit (code : Nat)
  | outOfRuns
  deriving DecidableEq, Repr

/-- The supervisor loop over the successive workers' output-line lists:
launch a worker on `target`, read its last line; no `Total` substring is a
fatal exit 1; a parsed count of `0` is a graceful exit 0; anything else
relaunches on the same target. -/
def supervise (target : String) : List (List String) → List Eff × SupRes
  | [] => ([], .outOfRuns)
  | out :: rest =>
    let last := lastLineOf out
    if ¬ hasTotalSignal last then ([Eff.launch target], .exit 1)
    else if lastToken last = "0" then ([Eff.launch target], .exit 0)
    else
      let r := supervise target rest
      (Eff.launch target :: r.1, r.2)

/-! ## `__main__` dispatch and URL branch (lines 174–226) -/

/-- The three top-level branches of `__main__`. -/
inductive Mode
  | supervisorMode
  | fileMode
  | urlMode
  deriving DecidableEq, Repr

/-- Lines 177, 198, 210: `-i` flag first, then the local-file test, then
the URL branch. -/
def dispatch (firstArgIsI argIsLocalFile : Bool) : Mode :=
  if firstArgIsI then .supervisorMode
  else if argIsLocalFile then .fileMode
  else .urlMode

/-- Result of the URL branch: a `sys.exit` code, the final
`print('Total:', total)` with the computed total, an uncaught exception,
or attempt-fuel exhaustion. -/
inductive MainRes
  | exit (code : Nat)
  | totalLine (n : Nat)
  | exn
  | fuelOut
  deriving DecidableEq, Repr

/-- Line 214: `sum(1 if ch == '/' else 0 for ch in arg)`. -/
def countSlashes (arg : String) : Nat :=
  arg.toList.foldl (fun n ch => n + (if ch = '/' then 1 else 0)) 0

/-- Lines 210–226: classify the URL by slash count — four slashes run
`chapter_index(arg)` (default delay 2), five run `create_pdf(arg)` (default
delay 2, output directory the working directory, no output name), anything
else reports a malformed link and exits 1 before any external call. -/
def mainUrlBranch (idxAtts : List IdxOracle)
    (retrieve : String → Nat → String → String → Nat)
    (pdfAtts : List PdfOracle) (fs : List String) (cwd : String)
    (arg : String) : List Eff × MainRes :=
  let slashes := countSlashes arg
  if slashes = 4 then
    match chapterIndexF retrieve idxAtts arg 2 with
    | (tr, .count t) => (tr, .totalLine t)
    | (tr, .exn) => (tr, .exn)
    | (tr, .fuelOut) => (tr, .fuelOut)
  else if slashes = 5 then
    match createPdf fs arg cwd pdfAtts 2 none with
    | (tr, .count t) => (tr, .totalLine t)
    | (tr, .exn) => (tr, .exn)
    | (tr, .fuelOut) => (tr, .fuelOut)
  else ([], .exit 1)

/-! ## Helper lemmas -/

/-- Retrying with the resolved output name re-resolves to the same name. -/
theorem resolvedOutname_idem {w od : String} {onm : Option String}
    {oname : String} (h : resolvedOutname w od onm = .ok oname) :
    resolvedOutname w od (some oname) = .ok oname := by
  cases hc : chapterOf w with
  | error e => cases onm <;> simp [resolvedOutname, hc, Except.map] at h
  | ok c => simp [resolvedOutname, hc, Except.map]

/-- `List.contains` on strings agrees with membership. -/
theorem contains_iff_mem (l : List String) (p : String) :
    l.contains p = true ↔ p ∈ l := by
  simp

/-- Effects never remove paths from the filesystem. -/
theorem mem_applyEff {fs : List String} {p : String} (e : Eff)
    (h : p ∈ fs) : p ∈ applyEff fs e := by
  cases e <;> simp [applyEff, h]

/-- Traces never remove paths from the filesystem. -/
theorem mem_applyTrace {p : String} (tr : List Eff) (fs : List String)
    (h : p ∈ fs) : p ∈ applyTrace fs tr := by
  induction tr generalizing fs with
  | nil => exact h
  | cons e t ih => exact ih _ (mem_applyEff e h)

/-- A document write in the trace places its path in the filesystem. -/
theorem writePdf_mem_applyTrace {p : String} (tr : List Eff)
    (fs : List String) (h : Eff.writePdf p ∈ tr) :
    p ∈ applyTrace fs tr := by
  induction tr generalizing fs with
  | nil => cases h
  | cons e t ih =>
    rcases List.mem_cons.mp h with he | ht
    · subst he
      exact mem_applyTrace t _ (List.mem_cons_self p fs)
    · exact ih _ ht

/-- The fetch loop never writes the final document. -/
theorem fetchLoop_no_writePdf (a : PdfOracle) (urls : List String)
    (p : String) : Eff.writePdf p ∉ (fetchLoop a urls).1 := by
  induction urls with
  | nil => simp [fetchLoop]
  | cons u us ih =>
    by_cases hc : '/' ∈ u.data
    · cases hf : a.fetch u <;> simp [fetchLoop, String.toList, hc, hf, ih]
    · simp [fetchLoop, String.toList, hc]

/-- When the fetch loop completes, every URL fetched successfully and
carried a slash. -/
theorem fetchLoop_allOk (a : PdfOracle) (urls : List String)
    (h : (fetchLoop a urls).2 = .allOk) :
    ∀ u ∈ urls, (a.fetch u).isSome ∧ '/' ∈ u.toList := by
  induction urls with
  | nil => simp
  | cons u us ih =>
    by_cases hc : '/' ∈ u.data
    · cases hf : a.fetch u with
      | none => simp [fetchLoop, String.toList, hc, hf] at h
      | some _ =>
        simp [fetchLoop, String.toList, hc, hf] at h
        intro v hv
        rcases List.mem_cons.mp hv with hv | hv
        · subst hv; exact ⟨by simp [hf], hc⟩
        · exact ih h v hv
    · simp [fetchLoop, String.toList, hc] at h

/-- A crashing fetch loop exhibits a URL without a slash. -/
theorem fetchLoop_badUrl (a : PdfOracle) (urls : List String)
    (h : (fetchLoop a urls).2 = .badUrl) :
    ∃ u ∈ urls, '/' ∉ u.toList := by
  induction urls with
  | nil => simp [fetchLoop] at h
  | cons u us ih =>
    by_cases hc : '/' ∈ u.data
    · cases hf : a.fetch u with
      | none => simp [fetchLoop, String.toList, hc, hf] at h
      | some _ =>
        simp [fetchLoop, String.toList, hc, hf] at h
        rcases ih h with ⟨v, hv, hv2⟩
        exact ⟨v, List.mem_cons_of_mem _ hv, hv2⟩
    · exact ⟨u, List.mem_cons_self _ _, hc⟩

/-- A raising scrape makes the attempt a retry with only the scrape call
in its trace. -/
theorem attemptPdf_scrapeErr (fs : List String) (w : String) (delay : Nat)
    (pdf od : String) (a : PdfOracle) (hs : a.scrape = none) :
    attemptPdf fs w delay pdf od a = ([Eff.scrapeCall w delay], .retry) := by
  simp [attemptPdf, hs]

/-- A failing image fetch makes the attempt a retry after a 10-unit
sleep. -/
theorem attemptPdf_fetchFail (fs : List String) (w : String) (delay : Nat)
    (pdf od : String) (a : PdfOracle) (html : String)
    (hs : a.scrape = some html)
    (hfl : (fetchLoop a (a.extractImages html)).2 = .failed) :
    attemptPdf fs w delay pdf od a =
      (Eff.scrapeCall w delay ::
        ((fetchLoop a (a.extractImages html)).1 ++ [Eff.sleep 10]), .retry) := by
  simp [attemptPdf, hs, hfl]

/-- An empty extracted image list makes the attempt a retry after a
10-unit sleep. -/
theorem attemptPdf_empty (fs : List String) (w : String) (delay : Nat)
    (pdf od : String) (a : PdfOracle) (html : String)
    (hs : a.scrape = some html) (he : a.extractImages html = []) :
    attemptPdf fs w delay pdf od a =
      ([Eff.scrapeCall w delay, Eff.sleep 10], .retry) := by
  simp [attemptPdf, hs, he, fetchLoop]

/-- A successful attempt scraped some HTML, extracted a non-empty image
list, and fetched every image successfully. -/
theorem attemptPdf_success_char (fs : List String) (w : String)
    (delay : Nat) (pdf od : String) (a : PdfOracle)
    (h : (attemptPdf fs w delay pdf od a).2 = .success) :
    ∃ html, a.scrape = some html ∧ a.extractImages html ≠ [] ∧
      ∀ u ∈ a.extractImages html, (a.fetch u).isSome := by
  cases hs : a.scrape with
  | none => simp [attemptPdf, hs] at h
  | some html =>
    cases h2 : (fetchLoop a (a.extractImages html)).2 with
    | badUrl => simp [attemptPdf, hs, h2] at h
    | failed => simp [attemptPdf, hs, h2] at h
    | allOk =>
      by_cases he : a.extractImages html = []
      · simp [attemptPdf, hs, h2, he, fetchLoop] at h
      · exact ⟨html, rfl, he, fun u hu => (fetchLoop_allOk a _ h2 u hu).1⟩

/-- A crashed attempt exhibits an extracted image URL without a slash. -/
theorem attemptPdf_crashed_char (fs : List String) (w : String)
    (delay : Nat) (pdf od : String) (a : PdfOracle)
    (h : (attemptPdf fs w delay pdf od a).2 = .crashed) :
    ∃ html, a.scrape = some html ∧
      ∃ u ∈ a.extractImages html, '/' ∉ u.toList := by
  cases hs : a.scrape with
  | none => simp [attemptPdf, hs] at h
  | some html =>
    cases h2 : (fetchLoop a (a.extractImages html)).2 with
    | badUrl => exact ⟨html, rfl, fetchLoop_badUrl a _ h2⟩
    | failed => simp [attemptPdf, hs, h2] at h
    | allOk =>
      by_cases he : a.extractImages html = [] <;>
        simp [attemptPdf, hs, h2, he, fetchLoop] at h

/-- A document write in an attempt trace forces the attempt to be the
successful one, writing exactly the artifact path. -/
theorem attemptPdf_writePdf_mem (fs : List String) (w : String)
    (delay : Nat) (pdf od : String) (a : PdfOracle) (p : String)
    (h : Eff.writePdf p ∈ (attemptPdf fs w delay pdf od a).1) :
    (attemptPdf fs w delay pdf od a).2 = .success ∧ p = pdf := by
  cases hs : a.scrape with
  | none => simp [attemptPdf, hs] at h
  | some html =>
    cases h2 : (fetchLoop a (a.extractImages html)).2 with
    | badUrl =>
      simp [attemptPdf, hs, h2] at h
      exact absurd h (fetchLoop_no_writePdf a _ p)
    | failed =>
      simp [attemptPdf, hs, h2] at h
      exact absurd h (fetchLoop_no_writePdf a _ p)
    | allOk =>
      by_cases he : a.extractImages html = []
      · simp [attemptPdf, hs, h2, he, fetchLoop] at h
      · by_cases ho : fs.contains od = true <;>
          · simp [attemptPdf, hs, h2, he, ho] at h ⊢
            rcases h with h | h
            · exact absurd h (fetchLoop_no_writePdf a _ p)
            · exact h

/-- The successful attempt's trace contains the document write. -/
theorem attemptPdf_success_write (fs : List String) (w : String)
    (delay : Nat) (pdf od : String) (a : PdfOracle)
    (h : (attemptPdf fs w delay pdf od a).2 = .success) :
    Eff.writePdf pdf ∈ (attemptPdf fs w delay pdf od a).1 := by
  cases hs : a.scrape with
  | none => simp [attemptPdf, hs] at h
  | some html =>
    cases h2 : (fetchLoop a (a.extractImages html)).2 with
    | badUrl => simp [attemptPdf, hs, h2] at h
    | failed => simp [attemptPdf, hs, h2] at h
    | allOk =>
      by_cases he : a.extractImages html = []
      · simp [attemptPdf, hs, h2, he, fetchLoop] at h
      · by_cases ho : fs.contains od = true <;>
          simp [attemptPdf, hs, h2, he, ho]
/-- The cache short-circuit (lines 59–61): when the derived artifact path
already exists, the call returns `0` with an empty trace, touching no
oracle. -/
theorem createPdf_cached (fs : List String) (w od : String)
    (atts : List PdfOracle) (delay : Nat) (onm : Option String)
    (oname : String) (hd : resolvedOutname w od onm = .ok oname)
    (hc : od ++ "/" ++ oname ++ ".pdf" ∈ fs) :
    createPdf fs w od atts delay onm = ([], .count 0) := by
  cases atts <;> simp [createPdf, hd, hc]

/-- Fuel exhaustion on an uncached path. -/
theorem createPdf_nil (fs : List String) (w od : String) (delay : Nat)
    (onm : Option String) (oname : String)
    (hd : resolvedOutname w od onm = .ok oname)
    (hnc : od ++ "/" ++ oname ++ ".pdf" ∉ fs) :
    createPdf fs w od [] delay onm = ([], .fuelOut) := by
  simp [createPdf, hd, hnc]

/-- Every retrying attempt recurses with `delay + 5` and the resolved
output name, prepending its own trace. -/
theorem createPdf_retry_step (fs : List String) (w od : String)
    (a : PdfOracle) (rest : List PdfOracle) (delay : Nat)
    (onm : Option String) (oname : String)
    (hd : resolvedOutname w od onm = .ok oname)
    (hnc : od ++ "/" ++ oname ++ ".pdf" ∉ fs)
    (hatt : (attemptPdf fs w delay (od ++ "/" ++ oname ++ ".pdf") od a).2 = .retry) :
    createPdf fs w od (a :: rest) delay onm =
      ((attemptPdf fs w delay (od ++ "/" ++ oname ++ ".pdf") od a).1 ++
         (createPdf fs w od rest (delay + 5) (some oname)).1,
       (createPdf fs w od rest (delay + 5) (some oname)).2) := by
  simp [createPdf, hd, hnc, hatt]

/-- The successful attempt makes the whole call return `1` with the
attempt's trace. -/
theorem createPdf_success_step (fs : List String) (w od : String)
    (a : PdfOracle) (rest : List PdfOracle) (delay : Nat)
    (onm : Option String) (oname : String)
    (hd : resolvedOutname w od onm = .ok oname)
    (hnc : od ++ "/" ++ oname ++ ".pdf" ∉ fs)
    (hatt : (attemptPdf fs w delay (od ++ "/" ++ oname ++ ".pdf") od a).2 = .success) :
    createPdf fs w od (a :: rest) delay onm =
      ((attemptPdf fs w delay (od ++ "/" ++ oname ++ ".pdf") od a).1,
       .count 1) := by
  simp [createPdf, hd, hnc, hatt]

/-- The crashing attempt makes the whole call an uncaught exception. -/
theorem createPdf_crashed_step (fs : List String) (w od : String)
    (a : PdfOracle) (rest : List PdfOracle) (delay : Nat)
    (onm : Option String) (oname : String)
    (hd : resolvedOutname w od onm = .ok oname)
    (hnc : od ++ "/" ++ oname ++ ".pdf" ∉ fs)
    (hatt : (attemptPdf fs w delay (od ++ "/" ++ oname ++ ".pdf") od a).2 = .crashed) :
    createPdf fs w od (a :: rest) delay onm =
      ((attemptPdf fs w delay (od ++ "/" ++ oname ++ ".pdf") od a).1,
       .exn) := by
  simp [createPdf, hd, hnc, hatt]

/-- Any document write in a `create_pdf` trace is the successful final
write: the run returns `1`, the path written is the derived artifact path,
and some attempt scraped, extracted a non-empty image list, and fetched
every image. -/
theorem createPdf_write_analysis (atts : List PdfOracle) :
    ∀ (fs : List String) (w od : String) (delay : Nat)
      (onm : Option String) (p : String),
    Eff.writePdf p ∈ (createPdf fs w od atts delay onm).1 →
    (createPdf fs w od atts delay onm).2 = .count 1 ∧
    (∃ oname, resolvedOutname w od onm = .ok oname ∧
      p = od ++ "/" ++ oname ++ ".pdf") ∧
    ∃ a ∈ atts, ∃ html, a.scrape = some html ∧ a.extractImages html ≠ [] ∧
      ∀ u ∈ a.extractImages html, (a.fetch u).isSome := by
  induction atts with
  | nil =>
    intro fs w od delay onm p hmem
    cases hre : resolvedOutname w od onm with
    | error e => simp [createPdf, hre] at hmem
    | ok oname =>
      by_cases hc : od ++ "/" ++ oname ++ ".pdf" ∈ fs <;>
        simp [createPdf, hre, hc] at hmem
  | cons a rest ih =>
    intro fs w od delay onm p hmem
    cases hre : resolvedOutname w od onm with
    | error e => simp [createPdf, hre] at hmem
    | ok oname =>
      by_cases hc : od ++ "/" ++ oname ++ ".pdf" ∈ fs
      · rw [createPdf_cached fs w od (a :: rest) delay onm oname hre hc] at hmem
        cases hmem
      · cases hatt : (attemptPdf fs w delay (od ++ "/" ++ oname ++ ".pdf") od a).2 with
        | success =>
          rw [createPdf_success_step fs w od a rest delay onm oname hre hc hatt]
            at hmem ⊢
          obtain ⟨_, hp⟩ := attemptPdf_writePdf_mem fs w delay _ od a p hmem
          exact ⟨rfl, ⟨oname, rfl, hp⟩, a, List.mem_cons_self a rest,
            attemptPdf_success_char fs w delay _ od a hatt⟩
        | crashed =>
          rw [createPdf_crashed_step fs w od a rest delay onm oname hre hc hatt]
            at hmem
          obtain ⟨hsucc, _⟩ := attemptPdf_writePdf_mem fs w delay _ od a p hmem
          rw [hatt] at hsucc
          cases hsucc
        | retry =>
          rw [createPdf_retry_step fs w od a rest delay onm oname hre hc hatt]
            at hmem ⊢
          rcases List.mem_append.mp hmem with hm | hm
          · obtain ⟨hsucc, _⟩ := attemptPdf_writePdf_mem fs w delay _ od a p hm
            rw [hatt] at hsucc
            cases hsucc
          · obtain ⟨hres, ⟨oname2, hre2, hp2⟩, a2, ha2, hrest⟩ :=
              ih fs w od (delay + 5) (some oname) p hm
            have hre3 := resolvedOutname_idem hre
            rw [hre3] at hre2
            cases hre2
            exact ⟨hres, ⟨oname, rfl, hp2⟩, a2, List.mem_cons_of_mem a ha2, hrest⟩

/-- A run returning `1` exhibits a fully successful attempt. -/
theorem createPdf_count1_attempt (atts : List PdfOracle) :
    ∀ (fs : List String) (w od : String) (delay : Nat)
      (onm : Option String),
    (createPdf fs w od atts delay onm).2 = .count 1 →
    ∃ a ∈ atts, ∃ html, a.scrape = some html ∧ a.extractImages html ≠ [] ∧
      ∀ u ∈ a.extractImages html, (a.fetch u).isSome := by
  induction atts with
  | nil =>
    intro fs w od delay onm h
    cases hre : resolvedOutname w od onm with
    | error e => simp [createPdf, hre] at h
    | ok oname =>
      by_cases hc : od ++ "/" ++ oname ++ ".pdf" ∈ fs <;>
        simp [createPdf, hre, hc] at h
  | cons a rest ih =>
    intro fs w od delay onm h
    cases hre : resolvedOutname w od onm with
    | error e => simp [createPdf, hre] at h
    | ok oname =>
      by_cases hc : od ++ "/" ++ oname ++ ".pdf" ∈ fs
      · rw [createPdf_cached fs w od (a :: rest) delay onm oname hre hc] at h
        cases h
      · cases hatt : (attemptPdf fs w delay (od ++ "/" ++ oname ++ ".pdf") od a).2 with
        | success =>
          exact ⟨a, List.mem_cons_self a rest,
            attemptPdf_success_char fs w delay _ od a hatt⟩
        | crashed =>
          rw [createPdf_crashed_step fs w od a rest delay onm oname hre hc hatt]
            at h
          cases h
        | retry =>
          rw [createPdf_retry_step fs w od a rest delay onm oname hre hc hatt]
            at h
          obtain ⟨a2, ha2, hrest⟩ := ih fs w od (delay + 5) (some oname) h
          exact ⟨a2, List.mem_cons_of_mem a ha2, hrest⟩

/-- A run returning `1` records the write of the derived artifact path in
its trace. -/
theorem createPdf_count1_write (atts : List PdfOracle) :
    ∀ (fs : List String) (w od : String) (delay : Nat)
      (onm : Option String) (oname : String) (tr : List Eff),
    resolvedOutname w od onm = .ok oname →
    createPdf fs w od atts delay onm = (tr, .count 1) →
    Eff.writePdf (od ++ "/" ++ oname ++ ".pdf") ∈ tr := by
  induction atts with
  | nil =>
    intro fs w od delay onm oname tr hd h
    by_cases hc : od ++ "/" ++ oname ++ ".pdf" ∈ fs
    · rw [createPdf_cached fs w od [] delay onm oname hd hc] at h
      cases h
    · rw [createPdf_nil fs w od delay onm oname hd hc] at h
      cases h
  | cons a rest ih =>
    intro fs w od delay onm oname tr hd h
    by_cases hc : od ++ "/" ++ oname ++ ".pdf" ∈ fs
    · rw [createPdf_cached fs w od (a :: rest) delay onm oname hd hc] at h
      cases h
    · cases hatt : (attemptPdf fs w delay (od ++ "/" ++ oname ++ ".pdf") od a).2 with
      | success =>
        rw [createPdf_success_step fs w od a rest delay onm oname hd hc hatt]
          at h
        have htr : (attemptPdf fs w delay (od ++ "/" ++ oname ++ ".pdf") od a).1
            = tr := congrArg Prod.fst h
        rw [← htr]
        exact attemptPdf_success_write fs w delay _ od a hatt
      | crashed =>
        rw [createPdf_crashed_step fs w od a rest delay onm oname hd hc hatt]
          at h
        have h2 : PdfRes.exn = PdfRes.count 1 := congrArg Prod.snd h
        cases h2
      | retry =>
        rw [createPdf_retry_step fs w od a rest delay onm oname hd hc hatt]
          at h
        have hres : (createPdf fs w od rest (delay + 5) (some oname)).2 =
            .count 1 := congrArg Prod.snd h
        have htr : (attemptPdf fs w delay (od ++ "/" ++ oname ++ ".pdf") od a).1
            ++ (createPdf fs w od rest (delay + 5) (some oname)).1 = tr :=
          congrArg Prod.fst h
        have h2 : createPdf fs w od rest (delay + 5) (some oname) =
            ((createPdf fs w od rest (delay + 5) (some oname)).1,
             (createPdf fs w od rest (delay + 5) (some oname)).2) := rfl
        rw [hres] at h2
        rw [← htr]
        refine List.mem_append.mpr (Or.inr ?_)
        exact ih fs w od (delay + 5) (some oname) oname _
          (resolvedOutname_idem hd) h2
/-- Groups produced by adjacent grouping are non-empty. -/
theorem groupByAdj_ne_nil : ∀ (l : List Entry) {g : List Entry},
    g ∈ groupByAdj l → g ≠ [] := by
  intro l
  induction l with
  | nil => intro g hg; simp [groupByAdj] at hg
  | cons x xs ih =>
    intro g hg
    cases hgx : groupByAdj xs with
    | nil =>
      simp only [groupByAdj, hgx] at hg
      simp at hg
      subst hg
      simp
    | cons g0 gs =>
      cases g0 with
      | nil =>
        simp only [groupByAdj, hgx] at hg
        rcases List.mem_cons.mp hg with h | h
        · subst h; simp
        · exact ih (by rw [hgx]; exact List.mem_cons_of_mem _ h)
      | cons y t =>
        simp only [groupByAdj, hgx] at hg
        by_cases hxy : x.index = y.index
        · rw [if_pos hxy] at hg
          rcases List.mem_cons.mp hg with h | h
          · subst h; simp
          · exact ih (by rw [hgx]; exact List.mem_cons_of_mem _ h)
        · rw [if_neg hxy] at hg
          rcases List.mem_cons.mp hg with h | h
          · subst h; simp
          · exact ih (by rw [hgx]; exact h)

/-- The head of a descending insertion. -/
theorem head?_insertDesc (x : Entry) (l : List Entry) :
    (insertDesc x l).head? = some
      (match l.head? with
       | none => x
       | some y => if x.downloads ≥ y.downloads then x else y) := by
  cases l with
  | nil => rfl
  | cons y ys => by_cases h : x.downloads ≥ y.downloads <;> simp [insertDesc, h]

/-- The head of the stable descending sort is the first maximum. -/
theorem sortDesc_head?_eq_firstMaxBy (l : List Entry) :
    (sortDesc l).head? = firstMaxBy l := by
  induction l with
  | nil => rfl
  | cons x xs ih =>
    show (insertDesc x (sortDesc xs)).head? = _
    rw [head?_insertDesc, ih]
    cases hm : firstMaxBy xs <;> simp [firstMaxBy, hm]

/-- A non-empty list has a first maximum. -/
theorem firstMaxBy_ne_none {l : List Entry} (h : l ≠ []) :
    ∃ m, firstMaxBy l = some m := by
  cases l with
  | nil => exact absurd rfl h
  | cons x xs =>
    cases hm : firstMaxBy xs <;> simp [firstMaxBy, hm]

/-- The first maximum is a member of the list. -/
theorem firstMaxBy_mem : ∀ {l : List Entry} {m : Entry},
    firstMaxBy l = some m → m ∈ l := by
  intro l
  induction l with
  | nil => intro m h; cases h
  | cons x xs ih =>
    intro m h
    cases hm : firstMaxBy xs with
    | none => simp [firstMaxBy, hm] at h; subst h; simp
    | some m2 =>
      simp only [firstMaxBy, hm] at h
      by_cases hc : x.downloads ≥ m2.downloads
      · rw [if_pos hc] at h
        cases h
        simp
      · rw [if_neg hc] at h
        cases h
        exact List.mem_cons_of_mem _ (ih hm)

/-- The first maximum dominates every element. -/
theorem firstMaxBy_le : ∀ {l : List Entry} {m : Entry},
    firstMaxBy l = some m → ∀ x ∈ l, x.downloads ≤ m.downloads := by
  intro l
  induction l with
  | nil => intro m h; cases h
  | cons x xs ih =>
    intro m h y hy
    cases hm : firstMaxBy xs with
    | none =>
      cases xs with
      | nil =>
        simp [firstMaxBy] at h
        subst h
        simp at hy
        subst hy
        exact Nat.le_refl _
      | cons z zs =>
        obtain ⟨m2, hm2⟩ := firstMaxBy_ne_none (l := z :: zs) (by simp)
        rw [hm2] at hm
        cases hm
    | some m2 =>
      simp only [firstMaxBy, hm] at h
      by_cases hc : x.downloads ≥ m2.downloads
      · rw [if_pos hc] at h
        cases h
        rcases List.mem_cons.mp hy with hy | hy
        · subst hy; exact Nat.le_refl _
        · exact Nat.le_trans (ih hm y hy) hc
      · rw [if_neg hc] at h
        cases h
        rcases List.mem_cons.mp hy with hy | hy
        · subst hy; omega
        · exact ih hm y hy

/-! ## `chapter_index` step lemmas -/

/-- An unguarded raising scrape is an uncaught exception of
`chapter_index`. -/
theorem chapterIndexF_scrapeErr
    (retrieve : String → Nat → String → String → Nat) (a : IdxOracle)
    (rest : List IdxOracle) (url : String) (delay : Nat)
    (hs : a.scrape = none) :
    chapterIndexF retrieve (a :: rest) url delay =
      ([Eff.scrapeCall url delay], .exn) := by
  simp [chapterIndexF, hs]

/-- Fewer than three tables crash the positional `[2]` selection. -/
theorem chapterIndexF_fewTables
    (retrieve : String → Nat → String → String → Nat) (a : IdxOracle)
    (rest : List IdxOracle) (url : String) (delay : Nat) (html : String)
    (hs : a.scrape = some html) (ht : (a.tables html).length < 3) :
    chapterIndexF retrieve (a :: rest) url delay =
      ([Eff.scrapeCall url delay], .exn) := by
  have h2 : (a.tables html)[2]? = none := by
    rw [List.getElem?_eq_none_iff]
    omega
  simp [chapterIndexF, hs, h2]

/-- Zero surviving entries sleep 10 units and retry with `delay + 5`. -/
theorem chapterIndexF_zeroEntries
    (retrieve : String → Nat → String → String → Nat) (a : IdxOracle)
    (rest : List IdxOracle) (url : String) (delay : Nat) (html tbl : String)
    (hs : a.scrape = some html) (ht : (a.tables html)[2]? = some tbl)
    (hz : normalizeEntries (a.rawEntries tbl) = []) :
    chapterIndexF retrieve (a :: rest) url delay =
      (Eff.scrapeCall url delay :: Eff.sleep 10 ::
         (chapterIndexF retrieve rest url (delay + 5)).1,
       (chapterIndexF retrieve rest url (delay + 5)).2) := by
  simp [chapterIndexF, hs, ht, hz]

/-- Given a successful name derivation and well-formed extracted image
URLs, `create_pdf` never raises: it can only return a count or exhaust its
attempts. -/
theorem createPdf_no_exn (atts : List PdfOracle) :
    ∀ (fs : List String) (w od : String) (delay : Nat)
      (onm : Option String) (oname : String),
    resolvedOutname w od onm = .ok oname →
    (∀ a ∈ atts, ∀ html : String, ∀ u ∈ a.extractImages html, '/' ∈ u.toList) →
    (createPdf fs w od atts delay onm).2 ≠ .exn := by
  induction atts with
  | nil =>
    intro fs w od delay onm oname hd hurl
    by_cases hc : od ++ "/" ++ oname ++ ".pdf" ∈ fs <;>
      simp [createPdf, hd, hc]
  | cons a rest ih =>
    intro fs w od delay onm oname hd hurl
    by_cases hc : od ++ "/" ++ oname ++ ".pdf" ∈ fs
    · rw [createPdf_cached fs w od (a :: rest) delay onm oname hd hc]
      simp
    · cases hatt : (attemptPdf fs w delay (od ++ "/" ++ oname ++ ".pdf") od a).2 with
      | success =>
        rw [createPdf_success_step fs w od a rest delay onm oname hd hc hatt]
        simp
      | crashed =>
        obtain ⟨html, _, u, hu, hslash⟩ :=
          attemptPdf_crashed_char fs w delay _ od a hatt
        exact absurd (hurl a (List.mem_cons_self a rest) html u hu) hslash
      | retry =>
        rw [createPdf_retry_step fs w od a rest delay onm oname hd hc hatt]
        exact ih fs w od (delay + 5) (some oname) oname
          (resolvedOutname_idem hd)
          (fun a2 ha2 => hurl a2 (List.mem_cons_of_mem a ha2))

/-- A raising render recurses immediately with `delay + 5`. -/
theorem createPdf_scrapeErr_step (fs : List String) (w od : String)
    (a : PdfOracle) (rest : List PdfOracle) (delay : Nat)
    (onm : Option String) (oname : String)
    (hd : resolvedOutname w od onm = .ok oname)
    (hnc : od ++ "/" ++ oname ++ ".pdf" ∉ fs) (hs : a.scrape = none) :
    createPdf fs w od (a :: rest) delay onm =
      (Eff.scrapeCall w delay ::
         (createPdf fs w od rest (delay + 5) (some oname)).1,
       (createPdf fs w od rest (delay + 5) (some oname)).2) := by
  have hatt := attemptPdf_scrapeErr fs w delay
    (od ++ "/" ++ oname ++ ".pdf") od a hs
  rw [createPdf_retry_step fs w od a rest delay onm oname hd hnc (by rw [hatt])]
  rw [hatt]
  rfl

/-- A raising image fetch sleeps 10 units and recurses with `delay + 5`. -/
theorem createPdf_fetchFail_step (fs : List String) (w od : String)
    (a : PdfOracle) (rest : List PdfOracle) (delay : Nat)
    (onm : Option String) (oname : String) (html : String)
    (hd : resolvedOutname w od onm = .ok oname)
    (hnc : od ++ "/" ++ oname ++ ".pdf" ∉ fs)
    (hs : a.scrape = some html)
    (hfl : (fetchLoop a (a.extractImages html)).2 = .failed) :
    createPdf fs w od (a :: rest) delay onm =
      (Eff.scrapeCall w delay ::
         ((fetchLoop a (a.extractImages html)).1 ++ Eff.sleep 10 ::
           (createPdf fs w od rest (delay + 5) (some oname)).1),
       (createPdf fs w od rest (delay + 5) (some oname)).2) := by
  have hatt := attemptPdf_fetchFail fs w delay
    (od ++ "/" ++ oname ++ ".pdf") od a html hs hfl
  rw [createPdf_retry_step fs w od a rest delay onm oname hd hnc (by rw [hatt])]
  rw [hatt]
  simp

/-- An empty extracted image list sleeps 10 units and recurses with
`delay + 5`. -/
theorem createPdf_empty_step (fs : List String) (w od : String)
    (a : PdfOracle) (rest : List PdfOracle) (delay : Nat)
    (onm : Option String) (oname : String) (html : String)
    (hd : resolvedOutname w od onm = .ok oname)
    (hnc : od ++ "/" ++ oname ++ ".pdf" ∉ fs)
    (hs : a.scrape = some html) (he : a.extractImages html = []) :
    createPdf fs w od (a :: rest) delay onm =
      (Eff.scrapeCall w delay :: Eff.sleep 10 ::
         (createPdf fs w od rest (delay + 5) (some oname)).1,
       (createPdf fs w od rest (delay + 5) (some oname)).2) := by
  have hatt := attemptPdf_empty fs w delay
    (od ++ "/" ++ oname ++ ".pdf") od a html hs he
  rw [createPdf_retry_step fs w od a rest delay onm oname hd hnc (by rw [hatt])]
  rw [hatt]
  rfl

/-- The always-failing renderer oracle. -/
def badOracle : PdfOracle := ⟨none, fun _ => [], fun _ => none⟩

/-- Against a renderer that always raises, `create_pdf` performs one
render call per supplied attempt, at delays increasing by exactly 5, and
never terminates of its own accord — only the fuel runs out. -/
theorem createPdf_allFail (n : Nat) :
    ∀ (fs : List String) (w od : String) (delay : Nat)
      (onm : Option String) (oname : String),
    resolvedOutname w od onm = .ok oname →
    od ++ "/" ++ oname ++ ".pdf" ∉ fs →
    createPdf fs w od (List.replicate n badOracle) delay onm =
      ((List.range n).map (fun k => Eff.scrapeCall w (delay + 5 * k)),
       .fuelOut) := by
  induction n with
  | zero =>
    intro fs w od delay onm oname hd hnc
    simpa using createPdf_nil fs w od delay onm oname hd hnc
  | succ n ih =>
    intro fs w od delay onm oname hd hnc
    rw [List.replicate_succ]
    rw [createPdf_scrapeErr_step fs w od badOracle _ delay onm oname hd hnc rfl]
    rw [ih fs w od (delay + 5) (some oname) oname (resolvedOutname_idem hd) hnc]
    have harith : ∀ k, delay + 5 + 5 * k = delay + 5 * (k + 1) := by
      intro k
      ring
    simp [List.range_succ_eq_map, List.map_map, Function.comp, harith]

/-! ## Claim theorems -/

/-- Claim C1: idempotent cache short-circuit.  Whenever a file already
exists at the derived artifact path, `create_pdf` returns `0` immediately
with an empty effect trace — no rendering, no network work, no file
written; and after a first call returning `1` (which wrote the artifact),
a second call with identical arguments on the resulting filesystem also
returns `0` with an empty trace, leaving the filesystem unchanged. -/
theorem C1_idempotent_cache_short_circuit
    (fs : List String) (atts : List PdfOracle) (w od : String)
    (delay : Nat) (onm : Option String) (oname : String)
    (hd : resolvedOutname w od onm = .ok oname) :
    (od ++ "/" ++ oname ++ ".pdf" ∈ fs →
      createPdf fs w od atts delay onm = ([], .count 0)) ∧
    (∀ tr, createPdf fs w od atts delay onm = (tr, .count 1) →
      ∀ (atts2 : List PdfOracle) (delay2 : Nat),
        createPdf (applyTrace fs tr) w od atts2 delay2 onm =
          ([], .count 0)) := by
  constructor
  · intro hc
    exact createPdf_cached fs w od atts delay onm oname hd hc
  · intro tr h atts2 delay2
    have hw := createPdf_count1_write atts fs w od delay onm oname tr hd h
    exact createPdf_cached _ w od atts2 delay2 onm oname hd
      (writePdf_mem_applyTrace tr fs hw)

/-- Claim C2: winner selection.  Every group the listing resolver forms is
non-empty and its selected entry (the head of the stably descending-sorted
group) is a member attaining the maximal popularity, equal to the
first-encountered entry of maximal popularity; on the input
`[(id 1, pop 5), (id 1, pop 9), (id 2, pop 3)]` exactly the two winners
`(id 1, pop 9)` and `(id 2, pop 3)` are produced. -/
theorem C2_winner_selection :
    (∀ (items g : List Entry), g ∈ groupByAdj items →
      ∃ top, (sortDesc g).head? = some top ∧ top ∈ g ∧
        (∀ x ∈ g, x.downloads ≤ top.downloads) ∧ firstMaxBy g = some top) ∧
    selectWinners
        [⟨"l1", "1", "n1", 5⟩, ⟨"l2", "1", "n2", 9⟩, ⟨"l3", "2", "n3", 3⟩] =
      [⟨"l2", "1", "n2", 9⟩, ⟨"l3", "2", "n3", 3⟩] := by
  constructor
  · intro items g hg
    obtain ⟨m, hm⟩ := firstMaxBy_ne_none (groupByAdj_ne_nil items hg)
    exact ⟨m, by rw [sortDesc_head?_eq_firstMaxBy, hm], firstMaxBy_mem hm,
      firstMaxBy_le hm, hm⟩
  · decide

/-- Claim C3: supervisor termination and relaunch.  After a worker exits,
the supervisor exits with status 1 when the last output line lacks the
`Total` signal, exits with status 0 when the parsed count is `0`, and
otherwise relaunches a worker on the same target and continues. -/
theorem C3_supervisor_loop (target : String) (out : List String)
    (rest : List (List String)) :
    (hasTotalSignal (lastLineOf out) = false →
      supervise target (out :: rest) = ([Eff.launch target], .exit 1)) ∧
    (hasTotalSignal (lastLineOf out) = true →
      lastToken (lastLineOf out) = "0" →
      supervise target (out :: rest) = ([Eff.launch target], .exit 0)) ∧
    (hasTotalSignal (lastLineOf out) = true →
      lastToken (lastLineOf out) ≠ "0" →
      supervise target (out :: rest) =
        (Eff.launch target :: (supervise target rest).1,
         (supervise target rest).2)) := by
  refine ⟨fun h => ?_, fun h h0 => ?_, fun h h0 => ?_⟩
  · simp [supervise, h]
  · simp [supervise, h, h0]
  · simp [supervise, h, h0]

/-- Claim C4: zero extraction triggers retry.  An empty extracted image
list in `create_pdf`, and zero surviving entries in `chapter_index`, each
sleep exactly 10 units and recurse with the delay increased by 5; and
`create_pdf` never returns `1` without an attempt whose extracted image
list was non-empty and fully fetched. -/
theorem C4_zero_extraction_retry :
    (∀ (fs : List String) (w od : String) (a : PdfOracle)
       (rest : List PdfOracle) (delay : Nat) (onm : Option String)
       (oname html : String),
      resolvedOutname w od onm = .ok oname →
      od ++ "/" ++ oname ++ ".pdf" ∉ fs →
      a.scrape = some html → a.extractImages html = [] →
      createPdf fs w od (a :: rest) delay onm =
        (Eff.scrapeCall w delay :: Eff.sleep 10 ::
           (createPdf fs w od rest (delay + 5) (some oname)).1,
         (createPdf fs w od rest (delay + 5) (some oname)).2)) ∧
    (∀ (retrieve : String → Nat → String → String → Nat) (a : IdxOracle)
       (rest : List IdxOracle) (url : String) (delay : Nat)
       (html tbl : String),
      a.scrape = some html → (a.tables html)[2]? = some tbl →
      normalizeEntries (a.rawEntries tbl) = [] →
      chapterIndexF retrieve (a :: rest) url delay =
        (Eff.scrapeCall url delay :: Eff.sleep 10 ::
           (chapterIndexF retrieve rest url (delay + 5)).1,
         (chapterIndexF retrieve rest url (delay + 5)).2)) ∧
    (∀ (fs : List String) (w od : String) (atts : List PdfOracle)
       (delay : Nat) (onm : Option String),
      (createPdf fs w od atts delay onm).2 = .count 1 →
      ∃ a ∈ atts, ∃ html, a.scrape = some html ∧
        a.extractImages html ≠ [] ∧
        ∀ u ∈ a.extractImages html, (a.fetch u).isSome) := by
  refine ⟨?_, ?_, ?_⟩
  · intro fs w od a rest delay onm oname html hd hnc hs he
    exact createPdf_empty_step fs w od a rest delay onm oname html hd hnc hs he
  · intro retrieve a rest url delay html tbl hs ht hz
    exact chapterIndexF_zeroEntries retrieve a rest url delay html tbl hs ht hz
  · intro fs w od atts delay onm h
    exact createPdf_count1_attempt atts fs w od delay onm h

/-- Claim C5: linear backoff on every retry path, with no attempt bound.
A raising render, a raising fetch, an empty image list, and zero surviving
entries each recurse with delay exactly `+5`; and against an
always-failing renderer, every supplied attempt is consumed at delays
`delay, delay+5, delay+10, …` with no terminating attempt count. -/
theorem C5_backoff_monotone :
    (∀ (fs : List String) (w od : String) (a : PdfOracle)
       (rest : List PdfOracle) (delay : Nat) (onm : Option String)
       (oname : String),
      resolvedOutname w od onm = .ok oname →
      od ++ "/" ++ oname ++ ".pdf" ∉ fs → a.scrape = none →
      createPdf fs w od (a :: rest) delay onm =
        (Eff.scrapeCall w delay ::
           (createPdf fs w od rest (delay + 5) (some oname)).1,
         (createPdf fs w od rest (delay + 5) (some oname)).2)) ∧
    (∀ (fs : List String) (w od : String) (a : PdfOracle)
       (rest : List PdfOracle) (delay : Nat) (onm : Option String)
       (oname html : String),
      resolvedOutname w od onm = .ok oname →
      od ++ "/" ++ oname ++ ".pdf" ∉ fs → a.scrape = some html →
      (fetchLoop a (a.extractImages html)).2 = .failed →
      createPdf fs w od (a :: rest) delay onm =
        (Eff.scrapeCall w delay ::
           ((fetchLoop a (a.extractImages html)).1 ++ Eff.sleep 10 ::
             (createPdf fs w od rest (delay + 5) (some oname)).1),
         (createPdf fs w od rest (delay + 5) (some oname)).2)) ∧
    (∀ (fs : List String) (w od : String) (a : PdfOracle)
       (rest : List PdfOracle) (delay : Nat) (onm : Option String)
       (oname html : String),
      resolvedOutname w od onm = .ok oname →
      od ++ "/" ++ oname ++ ".pdf" ∉ fs →
      a.scrape = some html → a.extractImages html = [] →
      createPdf fs w od (a :: rest) delay onm =
        (Eff.scrapeCall w delay :: Eff.sleep 10 ::
           (createPdf fs w od rest (delay + 5) (some oname)).1,
         (createPdf fs w od rest (delay + 5) (some oname)).2)) ∧
    (∀ (retrieve : String → Nat → String → String → Nat) (a : IdxOracle)
       (rest : List IdxOracle) (url : String) (delay : Nat)
       (html tbl : String),
      a.scrape = some html → (a.tables html)[2]? = some tbl →
      normalizeEntries (a.rawEntries tbl) = [] →
      chapterIndexF retrieve (a :: rest) url delay =
        (Eff.scrapeCall url delay :: Eff.sleep 10 ::
           (chapterIndexF retrieve rest url (delay + 5)).1,
         (chapterIndexF retrieve rest url (delay + 5)).2)) ∧
    (∀ (n : Nat) (fs : List String) (w od : String) (delay : Nat)
       (onm : Option String) (oname : String),
      resolvedOutname w od onm = .ok oname →
      od ++ "/" ++ oname ++ ".pdf" ∉ fs →
      createPdf fs w od (List.replicate n badOracle) delay onm =
        ((List.range n).map (fun k => Eff.scrapeCall w (delay + 5 * k)),
         .fuelOut)) := by
  refine ⟨?_, ?_, ?_, ?_, ?_⟩
  · intro fs w od a rest delay onm oname hd hnc hs
    exact createPdf_scrapeErr_step fs w od a rest delay onm oname hd hnc hs
  · intro fs w od a rest delay onm oname html hd hnc hs hfl
    exact createPdf_fetchFail_step fs w od a rest delay onm oname html
      hd hnc hs hfl
  · intro fs w od a rest delay onm oname html hd hnc hs he
    exact createPdf_empty_step fs w od a rest delay onm oname html hd hnc hs he
  · intro retrieve a rest url delay html tbl hs ht hz
    exact chapterIndexF_zeroEntries retrieve a rest url delay html tbl hs ht hz
  · intro n fs w od delay onm oname hd hnc
    exact createPdf_allFail n fs w od delay onm oname hd hnc

/-- Claim C6: malformed target rejection.  With no `-i` flag and a
non-file argument the URL branch runs, and for any slash count other than
4 or 5 it produces exit code 1 with an empty effect trace — no renderer or
extractor call, and no retry — whatever the oracles supply. -/
theorem C6_malformed_target_rejected (arg : String)
    (h4 : countSlashes arg ≠ 4) (h5 : countSlashes arg ≠ 5) :
    dispatch false false = Mode.urlMode ∧
    ∀ (idxAtts : List IdxOracle)
      (retrieve : String → Nat → String → String → Nat)
      (pdfAtts : List PdfOracle) (fs : List String) (cwd : String),
      mainUrlBranch idxAtts retrieve pdfAtts fs cwd arg = ([], .exit 1) := by
  refine ⟨rfl, fun idxAtts retrieve pdfAtts fs cwd => ?_⟩
  simp [mainUrlBranch, h4, h5]

/-- Claim C7: write-once atomicity of the artifact path.  Any document
write appearing in a `create_pdf` trace is at the derived artifact path,
the run returns `1`, and some attempt scraped HTML whose extracted image
list was non-empty with every image fetched and decoded successfully; on
every error path no file is created at the artifact path. -/
theorem C7_write_once_atomic (atts : List PdfOracle) (fs : List String)
    (w od : String) (delay : Nat) (onm : Option String) (oname p : String)
    (hd : resolvedOutname w od onm = .ok oname)
    (hw : Eff.writePdf p ∈ (createPdf fs w od atts delay onm).1) :
    p = od ++ "/" ++ oname ++ ".pdf" ∧
    (createPdf fs w od atts delay onm).2 = .count 1 ∧
    ∃ a ∈ atts, ∃ html, a.scrape = some html ∧
      a.extractImages html ≠ [] ∧
      ∀ u ∈ a.extractImages html, (a.fetch u).isSome := by
  obtain ⟨hres, ⟨oname2, hre2, hp⟩, hatt⟩ :=
    createPdf_write_analysis atts fs w od delay onm p hw
  rw [hd] at hre2
  cases hre2
  exact ⟨hp, hres, hatt⟩

/-- Claim C8 (amended): transient failures in `create_pdf` (raising
render, raising fetch, empty image list) are recovered locally by a
recursive retry, and `create_pdf` surfaces no exception when its name
derivation succeeds and extracted image URLs contain a slash; in
`chapter_index` zero surviving entries is likewise recovered, but a
raising render is NOT caught: it propagates as an uncaught exception. -/
theorem C8_transient_error_policy :
    (∀ (fs : List String) (w od : String) (a : PdfOracle)
       (rest : List PdfOracle) (delay : Nat) (onm : Option String)
       (oname : String),
      resolvedOutname w od onm = .ok oname →
      od ++ "/" ++ oname ++ ".pdf" ∉ fs → a.scrape = none →
      createPdf fs w od (a :: rest) delay onm =
        (Eff.scrapeCall w delay ::
           (createPdf fs w od rest (delay + 5) (some oname)).1,
         (createPdf fs w od rest (delay + 5) (some oname)).2)) ∧
    (∀ (fs : List String) (w od : String) (atts : List PdfOracle)
       (delay : Nat) (onm : Option String) (oname : String),
      resolvedOutname w od onm = .ok oname →
      (∀ a ∈ atts, ∀ html : String, ∀ u ∈ a.extractImages html,
        '/' ∈ u.toList) →
      (createPdf fs w od atts delay onm).2 ≠ .exn) ∧
    (∀ (retrieve : String → Nat → String → String → Nat) (a : IdxOracle)
       (rest : List IdxOracle) (url : String) (delay : Nat)
       (html tbl : String),
      a.scrape = some html → (a.tables html)[2]? = some tbl →
      normalizeEntries (a.rawEntries tbl) = [] →
      chapterIndexF retrieve (a :: rest) url delay =
        (Eff.scrapeCall url delay :: Eff.sleep 10 ::
           (chapterIndexF retrieve rest url (delay + 5)).1,
         (chapterIndexF retrieve rest url (delay + 5)).2)) ∧
    (∀ (retrieve : String → Nat → String → String → Nat) (a : IdxOracle)
       (rest : List IdxOracle) (url : String) (delay : Nat),
      a.scrape = none →
      chapterIndexF retrieve (a :: rest) url delay =
        ([Eff.scrapeCall url delay], .exn)) := by
  refine ⟨?_, ?_, ?_, ?_⟩
  · intro fs w od a rest delay onm oname hd hnc hs
    exact createPdf_scrapeErr_step fs w od a rest delay onm oname hd hnc hs
  · intro fs w od atts delay onm oname hd hurl
    exact createPdf_no_exn atts fs w od delay onm oname hd hurl
  · intro retrieve a rest url delay html tbl hs ht hz
    exact chapterIndexF_zeroEntries retrieve a rest url delay html tbl hs ht hz
  · intro retrieve a rest url delay hs
    exact chapterIndexF_scrapeErr retrieve a rest url delay hs

/-- Claim C8 counterexample: a raising render in `chapter_index` is not
recovered by a retry — the call is an uncaught exception, not a count. -/
theorem C8_counterexample :
    chapterIndexF (fun _ _ _ _ => 0)
        [⟨none, fun _ => [], fun _ => []⟩]
        "https://comick.app/comic/abc" 2 =
      ([Eff.scrapeCall "https://comick.app/comic/abc" 2], IdxRes.exn) := by
  rfl

/-- Claim C9 (amended): determinism of naming.  The derived artifact path
is a function of the winner's container name, normalized sequence id, and
title slug: two winners agreeing on all three receive the identical
path.  (The path does depend on the title through its slug.) -/
theorem C9_naming_deterministic (e1 e2 : Entry)
    (hc : containerOf e1.link = containerOf e2.link)
    (hi : e1.index = e2.index) (hs : slugOf e1.name = slugOf e2.name) :
    derivedListingPath e1 = derivedListingPath e2 := by
  simp only [derivedListingPath, deriveArgs, hc, hi, hs]

/-- Claim C9 counterexample: two entries with the same container name and
the same normalized sequence id but different titles receive different
artifact paths — the title slug is part of the derived path. -/
theorem C9_counterexample :
    containerOf (Entry.link ⟨"https://comick.app/comic/abc/x", "1", "aaa", 5⟩) =
      containerOf (Entry.link ⟨"https://comick.app/comic/abc/x", "1", "bbb", 5⟩) ∧
    Entry.index ⟨"https://comick.app/comic/abc/x", "1", "aaa", 5⟩ =
      Entry.index ⟨"https://comick.app/comic/abc/x", "1", "bbb", 5⟩ ∧
    derivedListingPath ⟨"https://comick.app/comic/abc/x", "1", "aaa", 5⟩ ≠
      derivedListingPath ⟨"https://comick.app/comic/abc/x", "1", "bbb", 5⟩ := by
  refine ⟨rfl, rfl, ?_⟩
  decide

/-- Claim C10: fewer than three table blocks crash the listing resolver.
When the rendered HTML yields fewer than three table matches, the
positional `[2]` selection raises an uncaught indexing exception — the
call neither retries nor returns a count, and the worker dies. -/
theorem C10_few_tables_crash
    (retrieve : String → Nat → String → String → Nat) (a : IdxOracle)
    (rest : List IdxOracle) (url : String) (delay : Nat) (html : String)
    (hs : a.scrape = some html) (ht : (a.tables html).length < 3) :
    chapterIndexF retrieve (a :: rest) url delay =
      ([Eff.scrapeCall url delay], .exn) :=
  chapterIndexF_fewTables retrieve a rest url delay html hs ht

/-! ## Witnesses -/

/-- Witness for C1 at a concrete cached call and a concrete
write-then-recall pair. -/
theorem C1_witness :
    createPdf ["d/n.pdf"] "w/x" "d" [] 2 (some "n") = ([], PdfRes.count 0) ∧
    createPdf
        (applyTrace []
          [Eff.scrapeCall "w/x" 2, Eff.fetchCall "http://i/1.png",
           Eff.writeTemp "1.png", Eff.mkdir "d", Eff.writePdf "d/n.pdf"])
        "w/x" "d" [] 7 (some "n") = ([], PdfRes.count 0) := by
  constructor
  · exact (C1_idempotent_cache_short_circuit ["d/n.pdf"] [] "w/x" "d" 2
      (some "n") "n" rfl).1 (by decide)
  · exact (C1_idempotent_cache_short_circuit []
      [⟨some "h", fun _ => ["http://i/1.png"], fun _ => some ()⟩]
      "w/x" "d" 2 (some "n") "n" rfl).2
      [Eff.scrapeCall "w/x" 2, Eff.fetchCall "http://i/1.png",
       Eff.writeTemp "1.png", Eff.mkdir "d", Eff.writePdf "d/n.pdf"]
      rfl [] 7

/-- Witness for C2 at the concrete duplicate group. -/
theorem C2_witness :
    ∃ top,
      (sortDesc [⟨"l1", "1", "n1", 5⟩, ⟨"l2", "1", "n2", 9⟩]).head? =
          some top ∧
      top ∈ [(⟨"l1", "1", "n1", 5⟩ : Entry), ⟨"l2", "1", "n2", 9⟩] ∧
      (∀ x ∈ [(⟨"l1", "1", "n1", 5⟩ : Entry), ⟨"l2", "1", "n2", 9⟩],
        x.downloads ≤ top.downloads) ∧
      firstMaxBy [⟨"l1", "1", "n1", 5⟩, ⟨"l2", "1", "n2", 9⟩] = some top :=
  C2_winner_selection.1
    [⟨"l1", "1", "n1", 5⟩, ⟨"l2", "1", "n2", 9⟩, ⟨"l3", "2", "n3", 3⟩]
    [⟨"l1", "1", "n1", 5⟩, ⟨"l2", "1", "n2", 9⟩] (by decide)

/-- Witness for C3 at a crashing, an exhausted, and a productive worker. -/
theorem C3_witness :
    supervise "t" [["crash"]] = ([Eff.launch "t"], SupRes.exit 1) ∧
    supervise "t" [["Total: 0"]] = ([Eff.launch "t"], SupRes.exit 0) ∧
    supervise "t" [["Total: 3"], ["Total: 0"]] =
      (Eff.launch "t" :: (supervise "t" [["Total: 0"]]).1,
       (supervise "t" [["Total: 0"]]).2) :=
  ⟨(C3_supervisor_loop "t" ["crash"] []).1 (by decide),
   (C3_supervisor_loop "t" ["Total: 0"] []).2.1 (by decide) (by decide),
   (C3_supervisor_loop "t" ["Total: 3"] [["Total: 0"]]).2.2 (by decide)
     (by decide)⟩

/-- Witness for C4 at concrete empty-extraction runs. -/
theorem C4_witness :
    createPdf [] "w/x" "d" [⟨some "h", fun _ => [], fun _ => none⟩] 2
        (some "n") =
      (Eff.scrapeCall "w/x" 2 :: Eff.sleep 10 ::
         (createPdf [] "w/x" "d" [] 7 (some "n")).1,
       (createPdf [] "w/x" "d" [] 7 (some "n")).2) ∧
    chapterIndexF (fun _ _ _ _ => 0)
        [⟨some "h", fun _ => ["t1", "t2", "t3"], fun _ => []⟩] "u" 2 =
      (Eff.scrapeCall "u" 2 :: Eff.sleep 10 ::
         (chapterIndexF (fun _ _ _ _ => 0) [] "u" 7).1,
       (chapterIndexF (fun _ _ _ _ => 0) [] "u" 7).2) ∧
    ∃ a ∈ [(⟨some "h", fun _ => ["http://i/1.png"], fun _ => some ()⟩ :
        PdfOracle)],
      ∃ html, a.scrape = some html ∧ a.extractImages html ≠ [] ∧
        ∀ u ∈ a.extractImages html, (a.fetch u).isSome :=
  ⟨C4_zero_extraction_retry.1 [] "w/x" "d"
      ⟨some "h", fun _ => [], fun _ => none⟩ [] 2 (some "n") "n" "h"
      rfl (by decide) rfl rfl,
   C4_zero_extraction_retry.2.1 (fun _ _ _ _ => 0)
      ⟨some "h", fun _ => ["t1", "t2", "t3"], fun _ => []⟩ [] "u" 2 "h" "t3"
      rfl rfl rfl,
   C4_zero_extraction_retry.2.2 [] "w/x" "d"
      [⟨some "h", fun _ => ["http://i/1.png"], fun _ => some ()⟩] 2
      (some "n") (by decide)⟩

/-- Witness for C5 at one concrete run per retry path and a three-attempt
all-failing run. -/
theorem C5_witness :
    createPdf [] "s/y" "e" [badOracle] 3 (some "m") =
      (Eff.scrapeCall "s/y" 3 ::
         (createPdf [] "s/y" "e" [] 8 (some "m")).1,
       (createPdf [] "s/y" "e" [] 8 (some "m")).2) ∧
    createPdf [] "s/y" "e"
        [⟨some "g", fun _ => ["http://i/2.png"], fun _ => none⟩] 3
        (some "m") =
      (Eff.scrapeCall "s/y" 3 ::
         ((fetchLoop ⟨some "g", fun _ => ["http://i/2.png"], fun _ => none⟩
             ["http://i/2.png"]).1 ++ Eff.sleep 10 ::
           (createPdf [] "s/y" "e" [] 8 (some "m")).1),
       (createPdf [] "s/y" "e" [] 8 (some "m")).2) ∧
    createPdf [] "s/y" "e" [⟨some "g", fun _ => [], fun _ => none⟩] 3
        (some "m") =
      (Eff.scrapeCall "s/y" 3 :: Eff.sleep 10 ::
         (createPdf [] "s/y" "e" [] 8 (some "m")).1,
       (createPdf [] "s/y" "e" [] 8 (some "m")).2) ∧
    chapterIndexF (fun _ _ _ _ => 1)
        [⟨some "g", fun _ => ["a", "b", "c", "d"], fun _ => []⟩] "v" 3 =
      (Eff.scrapeCall "v" 3 :: Eff.sleep 10 ::
         (chapterIndexF (fun _ _ _ _ => 1) [] "v" 8).1,
       (chapterIndexF (fun _ _ _ _ => 1) [] "v" 8).2) ∧
    createPdf [] "s/y" "e" (List.replicate 3 badOracle) 3 (some "m") =
      ((List.range 3).map (fun k => Eff.scrapeCall "s/y" (3 + 5 * k)),
       PdfRes.fuelOut) :=
  ⟨C5_backoff_monotone.1 [] "s/y" "e" badOracle [] 3 (some "m") "m"
      rfl (by decide) rfl,
   C5_backoff_monotone.2.1 [] "s/y" "e"
      ⟨some "g", fun _ => ["http://i/2.png"], fun _ => none⟩ [] 3 (some "m")
      "m" "g" rfl (by decide) rfl rfl,
   C5_backoff_monotone.2.2.1 [] "s/y" "e"
      ⟨some "g", fun _ => [], fun _ => none⟩ [] 3 (some "m") "m" "g"
      rfl (by decide) rfl rfl,
   C5_backoff_monotone.2.2.2.1 (fun _ _ _ _ => 1)
      ⟨some "g", fun _ => ["a", "b", "c", "d"], fun _ => []⟩ [] "v" 3 "g" "c"
      rfl rfl rfl,
   C5_backoff_monotone.2.2.2.2 3 [] "s/y" "e" 3 (some "m") "m"
      rfl (by decide)⟩

/-- Witness for C6 at a slash-free argument. -/
theorem C6_witness :
    dispatch false false = Mode.urlMode ∧
    mainUrlBranch [] (fun _ _ _ _ => 0) [] [] "cwd" "not-a-url" =
      ([], MainRes.exit 1) :=
  ⟨(C6_malformed_target_rejected "not-a-url" (by decide) (by decide)).1,
   (C6_malformed_target_rejected "not-a-url" (by decide) (by decide)).2
     [] (fun _ _ _ _ => 0) [] [] "cwd"⟩

/-- Witness for C7 at a concrete successful run. -/
theorem C7_witness :
    "d/n.pdf" = "d" ++ "/" ++ "n" ++ ".pdf" ∧
    (createPdf [] "w/x" "d"
        [⟨some "h", fun _ => ["http://i/1.png"], fun _ => some ()⟩] 2
        (some "n")).2 = PdfRes.count 1 ∧
    ∃ a ∈ [(⟨some "h", fun _ => ["http://i/1.png"], fun _ => some ()⟩ :
        PdfOracle)],
      ∃ html, a.scrape = some html ∧ a.extractImages html ≠ [] ∧
        ∀ u ∈ a.extractImages html, (a.fetch u).isSome :=
  C7_write_once_atomic
    [⟨some "h", fun _ => ["http://i/1.png"], fun _ => some ()⟩]
    [] "w/x" "d" 2 (some "n") "n" "d/n.pdf" rfl (by decide)

/-- Witness for C8 at concrete runs of each conjunct. -/
theorem C8_witness :
    createPdf [] "w/x" "d" [badOracle] 2 (some "n") =
      (Eff.scrapeCall "w/x" 2 ::
         (createPdf [] "w/x" "d" [] 7 (some "n")).1,
       (createPdf [] "w/x" "d" [] 7 (some "n")).2) ∧
    (createPdf [] "w/x" "d"
        [⟨some "h", fun _ => ["http://i/1.png"], fun _ => some ()⟩] 2
        (some "n")).2 ≠ PdfRes.exn ∧
    chapterIndexF (fun _ _ _ _ => 0)
        [⟨some "h", fun _ => ["t1", "t2", "t3"], fun _ => []⟩] "u" 2 =
      (Eff.scrapeCall "u" 2 :: Eff.sleep 10 ::
         (chapterIndexF (fun _ _ _ _ => 0) [] "u" 7).1,
       (chapterIndexF (fun _ _ _ _ => 0) [] "u" 7).2) ∧
    chapterIndexF (fun _ _ _ _ => 0) [⟨none, fun _ => [], fun _ => []⟩]
        "u" 2 = ([Eff.scrapeCall "u" 2], IdxRes.exn) :=
  ⟨C8_transient_error_policy.1 [] "w/x" "d" badOracle [] 2 (some "n") "n"
      rfl (by decide) rfl,
   C8_transient_error_policy.2.1 [] "w/x" "d"
      [⟨some "h", fun _ => ["http://i/1.png"], fun _ => some ()⟩] 2
      (some "n") "n" rfl
      (by
        intro a ha html u hu
        simp at ha
        subst ha
        simp at hu
        subst hu
        decide),
   C8_transient_error_policy.2.2.1 (fun _ _ _ _ => 0)
      ⟨some "h", fun _ => ["t1", "t2", "t3"], fun _ => []⟩ [] "u" 2 "h" "t3"
      rfl rfl rfl,
   C8_transient_error_policy.2.2.2 (fun _ _ _ _ => 0)
      ⟨none, fun _ => [], fun _ => []⟩ [] "u" 2 rfl⟩

/-- Witness for C9 (amended) at two titles with the same slug. -/
theorem C9_witness :
    derivedListingPath ⟨"https://comick.app/comic/abc/x", "1", "A B", 5⟩ =
      derivedListingPath ⟨"https://comick.app/comic/abc/x", "1", "a-b", 9⟩ :=
  C9_naming_deterministic
    ⟨"https://comick.app/comic/abc/x", "1", "A B", 5⟩
    ⟨"https://comick.app/comic/abc/x", "1", "a-b", 9⟩
    rfl rfl (by decide)

/-- Witness for C10 at a page with a single table. -/
theorem C10_witness :
    chapterIndexF (fun _ _ _ _ => 0)
        [⟨some "h", fun _ => ["t1"], fun _ => []⟩] "u" 2 =
      ([Eff.scrapeCall "u" 2], IdxRes.exn) :=
  C10_few_tables_crash (fun _ _ _ _ => 0)
    ⟨some "h", fun _ => ["t1"], fun _ => []⟩ [] "u" 2 "h" rfl (by decide)

end Manga
